import Mathlib

/-
Shallow embedding of the flaki agent-loop orchestration engine:
the Gemini-driven tool-call loops (`reproduceWithGemini` in
src/agents/reproducer.ts and `analyzeIssueWithGemini` in the filterer),
the tool registry (`runAiFunction` in utils/defineAiFunction.ts), the
cached repository explorer (`createExploreFunctions` in tools/explore.ts)
and the Docker sandbox (`createDockerFunctions` in tools/docker.ts).

JSON-ish runtime values handed between the model and the tools are
modelled by `Val`; the opaque model backend is a function from the
conversation history to a response; the GitHub and Docker backends are
likewise function parameters, so each theorem quantifies over every
possible backend behaviour.
-/

namespace Flaki

/-- Untyped runtime values exchanged with the model: `undef` stands for
JavaScript `undefined`, `str` for strings, `strList` for string arrays. -/
inductive Val where
  | undef
  | str (s : String)
  | strList (l : List String)
  deriving DecidableEq, Repr

/-- A tool-call request produced by the model; the name may be absent
(the SDK types it as optional, and the source guards with `if (!name)`). -/
structure FunctionCall where
  name : Option String
  args : Val
  deriving DecidableEq, Repr

/-- One model response: optional free text plus a batch of tool calls
(`response.functionCalls || []`). -/
structure ModelResponse where
  text : Option String
  functionCalls : List FunctionCall
  deriving DecidableEq, Repr

/-- The outcome tag used in the reproducer's `functionCallHistory`
records: `'output' | 'error'`. -/
inductive HKey where
  | output
  | error
  deriving DecidableEq, Repr

/-- One turn of the conversation (`contents`): the initial user prompt,
a model-role functionCall part, or a user-role functionResponse part. -/
inductive Content where
  | userText (text : String)
  | modelCall (name : Option String) (args : Val)
  | toolResponse (name : Option String) (key : HKey) (result : Val)
  deriving DecidableEq, Repr

/-- The opaque model backend: full history in, one response out. -/
def Model := List Content → ModelResponse

/-- A tool implementation: may return a value or throw (message). -/
def ToolImpl := Val → Except String Val

/-- `Object.fromEntries(aiFunctions.map(f => [f.declaration.name, f]))` —
a name-keyed map of tools, looked up by name. -/
def ToolMap := List (String × ToolImpl)

/-- `runAiFunction` from utils/defineAiFunction.ts: look the name up in
the map; throw `Function 'name' not found` when absent, otherwise invoke
the implementation. -/
def runAiFunction (funcs : ToolMap) (name : String) (args : Val) : Except String Val :=
  match funcs.lookup name with
  | none => Except.error ("Function '" ++ name ++ "' not found")
  | some impl => impl args

/-- JavaScript falsiness of the optional call name: `if (!name) throw` —
both a missing name and the empty string are falsy. -/
def missingName : Option String → Bool
  | none => true
  | some s => s = ""

/-- `name || 'unknown'` used when recording the history entry. -/
def nameOrUnknown : Option String → String
  | none => "unknown"
  | some s => if s = "" then "unknown" else s

/-- The try/catch around `runAiFunction` in `reproduceWithGemini`
(src/agents/reproducer.ts lines 250-262): returns the history outcome tag,
the recorded result (`Error: <message>` on a throw) and the list of tool
implementations whose body was actually entered by this dispatch (empty
when the name was missing or absent from the map). -/
def dispatchCall (funcs : ToolMap) (c : FunctionCall) : HKey × Val × List String :=
  if missingName c.name then
    (HKey.error, Val.str "Error: Function call missing name", [])
  else
    let n := c.name.getD ""
    let entered := if (funcs.lookup n).isSome then [n] else []
    match runAiFunction funcs n c.args with
    | Except.ok v => (HKey.output, v, entered)
    | Except.error m => (HKey.error, Val.str ("Error: " ++ m), entered)

/-- One record of the reproducer's `functionCallHistory`. -/
structure HistoryEntry where
  name : String
  args : Val
  result : Val
  key : HKey
  deriving DecidableEq, Repr

/-- The effect of the reproducer's inner `for (const call of functionCalls)`
loop on one batch: conversation turns appended, history records appended,
implementations entered, and the finalize payload when a `report` call was
reached (processing stops there; later calls contribute nothing). -/
structure BatchResult where
  contents : List Content
  history : List HistoryEntry
  implsRun : List String
  finalResult : Option Val
  deriving DecidableEq, Repr

/-- Inner loop of `reproduceWithGemini` (src/agents/reproducer.ts lines
246-284): each call is dispatched (the `finally` always pushes a history
record); if the call's raw name is `report` the loop returns its arguments
at once, and only for other calls are the model-turn/tool-response-turn
pair appended to the conversation. -/
def processBatch (funcs : ToolMap) : List FunctionCall → BatchResult
  | [] => ⟨[], [], [], none⟩
  | c :: rest =>
    let d := dispatchCall funcs c
    let entry : HistoryEntry := ⟨nameOrUnknown c.name, c.args, d.2.1, d.1⟩
    if c.name = some "report" then
      ⟨[], [entry], d.2.2, some c.args⟩
    else
      let b := processBatch funcs rest
      ⟨Content.modelCall c.name c.args :: Content.toolResponse c.name d.1 d.2.1 :: b.contents,
       entry :: b.history, d.2.2 ++ b.implsRun, b.finalResult⟩

/-- Mutable state of one agent run: the conversation, the reproducer's
`functionCallHistory` and `agentResponses` accumulators, the trace of tool
implementations entered, and how many times the model has been invoked. -/
structure AgentState where
  contents : List Content
  functionCallHistory : List HistoryEntry
  agentResponses : List (Nat × String)
  implsRun : List String
  modelInvocations : Nat
  deriving DecidableEq, Repr

/-- `if (response.text) agentResponses.push({ iteration: i + 1, text })` —
an empty string is falsy and is not pushed. -/
def pushResponseText (st : AgentState) (text : Option String) : AgentState :=
  match text with
  | some t =>
    if t = "" then st
    else { st with agentResponses := st.agentResponses ++ [(st.modelInvocations, t)] }
  | none => st

/-- How one iteration of the outer loop ends: `noCall` is the `break` when
the model returned zero tool calls, `finalized` is the early `return` on a
`report`/`analyzeIssue` call, `next` continues the loop. -/
inductive IterOutcome where
  | noCall
  | finalized (args : Val)
  | next
  deriving DecidableEq, Repr

/-- One iteration of the `reproduceWithGemini` outer loop (lines 220-285):
invoke the model on the accumulated contents, record the free text, break
on an empty batch, otherwise process the batch and either return the
report arguments or continue. -/
def reproIter (model : Model) (funcs : ToolMap) (st : AgentState) : AgentState × IterOutcome :=
  let response := model st.contents
  let st1 := { st with modelInvocations := st.modelInvocations + 1 }
  let st2 := pushResponseText st1 response.text
  if response.functionCalls.isEmpty then
    (st2, IterOutcome.noCall)
  else
    let b := processBatch funcs response.functionCalls
    let st3 := { st2 with
      contents := st2.contents ++ b.contents,
      functionCallHistory := st2.functionCallHistory ++ b.history,
      implsRun := st2.implsRun ++ b.implsRun }
    match b.finalResult with
    | some args => (st3, IterOutcome.finalized args)
    | none => (st3, IterOutcome.next)

/-- `for (let i = 0; i < maxIterations; i++)`, as fuel recursion: fuel 0
means the iteration budget is spent. The second component is the
`finalResult` the loop body returned early, `none` when the loop was left
by `break` or by exhausting the budget. -/
def reproLoopAux (model : Model) (funcs : ToolMap) : Nat → AgentState → AgentState × Option Val
  | 0, st => (st, none)
  | rem + 1, st =>
    match reproIter model funcs st with
    | (st', IterOutcome.noCall) => (st', none)
    | (st', IterOutcome.finalized args) => (st', some args)
    | (st', IterOutcome.next) => reproLoopAux model funcs rem st'

/-- What `reproduceWithGemini` resolves with, plus the run's observables:
`warned` records the `logger.warn('Reproducer agent exceeded max
iterations...')` that runs exactly when the loop ends without an early
return. -/
structure ReproOutcome where
  finalResult : Option Val
  functionCallHistory : List HistoryEntry
  agentResponses : List (Nat × String)
  warned : Bool
  modelInvocations : Nat
  implsRun : List String
  deriving DecidableEq, Repr

/-- `reproduceWithGemini` (src/agents/reproducer.ts lines 103-290): seed
the history with the initial prompt, run up to `maxIterations` iterations,
and warn when no report arrived. -/
def reproduceWithGemini (model : Model) (funcs : ToolMap) (initialPrompt : String)
    (maxIterations : Nat := 50) : ReproOutcome :=
  let st0 : AgentState := ⟨[Content.userText initialPrompt], [], [], [], 0⟩
  let r := reproLoopAux model funcs maxIterations st0
  ⟨r.2, r.1.functionCallHistory, r.1.agentResponses, r.2.isNone, r.1.modelInvocations, r.1.implsRun⟩

/-- The `report` finalize tool's dummy implementation: a no-op returning
`undefined`. -/
def reportImpl : ToolImpl := fun _ => Except.ok Val.undef

/-- The reproducer's tool set `[readFile, listDir, buildImage,
createContainer, executeCommand, report]`, keyed by declaration name. -/
def reproToolMap (readFileI listDirI buildImageI createContainerI executeCommandI : ToolImpl) :
    ToolMap :=
  [("readFile", readFileI), ("listDir", listDirI), ("buildImage", buildImageI),
   ("createContainer", createContainerI), ("executeCommand", executeCommandI),
   ("report", reportImpl)]

/-- Effect of the filterer's inner call loop on one batch (conversation
turns appended, implementations entered, finalize payload). The filterer
keeps no `functionCallHistory`. -/
structure ABatch where
  contents : List Content
  implsRun : List String
  finalResult : Option Val
  deriving DecidableEq, Repr

/-- Inner loop of `analyzeIssueWithGemini` (src/agents/filterer.ts): a
call named `analyzeIssue` is intercepted by name BEFORE any dispatch and
its arguments returned; every other call is dispatched, and its response
is always recorded under the `output` key, even when the tool threw
(`response: { output: result }`). -/
def analyzeBatch (funcs : ToolMap) : List FunctionCall → ABatch
  | [] => ⟨[], [], none⟩
  | c :: rest =>
    if c.name = some "analyzeIssue" then
      ⟨[], [], some c.args⟩
    else
      let d := dispatchCall funcs c
      let b := analyzeBatch funcs rest
      ⟨Content.modelCall c.name c.args :: Content.toolResponse c.name HKey.output d.2.1 :: b.contents,
       d.2.2 ++ b.implsRun, b.finalResult⟩

/-- One iteration of the filterer's outer loop: no free-text recording,
no call history, otherwise the same shape as the reproducer's. -/
def analyzeIter (model : Model) (funcs : ToolMap) (st : AgentState) : AgentState × IterOutcome :=
  let response := model st.contents
  let st1 := { st with modelInvocations := st.modelInvocations + 1 }
  if response.functionCalls.isEmpty then
    (st1, IterOutcome.noCall)
  else
    let b := analyzeBatch funcs response.functionCalls
    let st2 := { st1 with
      contents := st1.contents ++ b.contents,
      implsRun := st1.implsRun ++ b.implsRun }
    match b.finalResult with
    | some args => (st2, IterOutcome.finalized args)
    | none => (st2, IterOutcome.next)

/-- Fuel recursion for the filterer's `for (let i = 0; i < maxIterations;
i++)`. -/
def analyzeLoopAux (model : Model) (funcs : ToolMap) : Nat → AgentState → AgentState × Option Val
  | 0, st => (st, none)
  | rem + 1, st =>
    match analyzeIter model funcs st with
    | (st', IterOutcome.noCall) => (st', none)
    | (st', IterOutcome.finalized args) => (st', some args)
    | (st', IterOutcome.next) => analyzeLoopAux model funcs rem st'

/-- The filterer's hard-coded iteration budget: `const maxIterations = 10`. -/
def analyzeMaxIterations : Nat := 10

/-- `analyzeIssueWithGemini`: returns the `analyzeIssue` arguments when
that call arrives, and otherwise throws `AI completed analysis without
calling analyzeIssue after 10 iterations` — both on budget exhaustion and
after the `break` on a call-free model response. -/
def analyzeIssueWithGemini (model : Model) (funcs : ToolMap) (initialPrompt : String) :
    Except String Val × AgentState :=
  let st0 : AgentState := ⟨[Content.userText initialPrompt], [], [], [], 0⟩
  let r := analyzeLoopAux model funcs analyzeMaxIterations st0
  match r.2 with
  | some args => (Except.ok args, r.1)
  | none =>
    (Except.error ("AI completed analysis without calling analyzeIssue after "
      ++ toString analyzeMaxIterations ++ " iterations"), r.1)

/-- The `analyzeIssue` finalize tool's dummy implementation (a no-op). -/
def analyzeIssueImpl : ToolImpl := fun _ => Except.ok Val.undef

/-- The filterer's tool set `[readFile, listDir, analyzeIssue]`. -/
def analyzeToolMap (readFileI listDirI : ToolImpl) : ToolMap :=
  [("readFile", readFileI), ("listDir", listDirI), ("analyzeIssue", analyzeIssueImpl)]

/-! ## Repository Explorer (src/tools/explore.ts) -/

/-- What `octokit.rest.repos.getContent` resolves with: an array of
entries for a directory (each entry abstracted to its `name`, the only
field the source reads), or a single object with a `type` field and an
optional base64 `content` field. -/
inductive ContentData where
  | arr (names : List String)
  | obj (typ : String) (content : Option String)
  deriving DecidableEq, Repr

/-- Resolution or rejection of one `getContent` request; a rejection
carries the optional HTTP `status` and the error `message`. -/
inductive ApiOutcome where
  | ok (data : ContentData)
  | err (status : Option Nat) (message : String)
  deriving DecidableEq, Repr

/-- The backing code-hosting read API: owner, repo, path ↦ outcome. -/
def GithubApi := String → String → String → ApiOutcome

/-- One request issued to the backing API (for counting invocations). -/
structure ApiCall where
  owner : String
  repo : String
  path : String
  deriving DecidableEq, Repr

/-- The per-instance closure state of `createExploreFunctions`: the repo
identity and the `repoCache` object. The source keeps one record with
`file:`- and `dir:`-prefixed keys; the two key families are disjoint, so
they are kept as two association lists here. -/
structure ExploreState where
  repoFullName : String
  owner : String
  repo : String
  fileCache : List (String × String)
  dirCache : List (String × List String)
  deriving DecidableEq, Repr

/-- JavaScript `String.prototype.split` on a single separator character,
by structural recursion on the character list (kernel-reducible, unlike
`String.splitOn`). -/
def splitCharAux (sep : Char) : List Char → List Char → List (List Char)
  | [], acc => [acc.reverse]
  | c :: cs, acc =>
    if c = sep then acc.reverse :: splitCharAux sep cs []
    else splitCharAux sep cs (c :: acc)

/-- `s.split(sep)` as in JavaScript: every segment, in order. -/
def jsSplit (s : String) (sep : Char) : List String :=
  (splitCharAux sep s.data []).map String.mk

/-- `createExploreFunctions(repoFullName)`: split on `/`, fail fast when
owner or repo is falsy (absent or empty), otherwise start with an empty
cache. -/
def createExploreFunctions (repoFullName : String) : Except String ExploreState :=
  let parts := jsSplit repoFullName '/'
  let owner := parts.getD 0 ""
  let repo := parts.getD 1 ""
  if owner = "" || repo = "" then
    Except.error ("Invalid repository name format: " ++ repoFullName ++ ". Expected 'owner/repo'")
  else
    Except.ok ⟨repoFullName, owner, repo, [], []⟩

/-- `readFile` (src/tools/explore.ts lines 21-58). Returns the result,
the updated instance state, and the list of backing-API requests issued
(empty on a cache hit). `decode` is the base64-to-utf8 transport decoding,
kept abstract. A response that is an array, or a non-`file` object, throws
inside the `try`, so the outer catch rewraps it with `Failed to read
file`; only a rejection with status 404 maps to `File not found`. -/
def readFile (api : GithubApi) (decode : String → String) (st : ExploreState) (path : String) :
    Except String String × ExploreState × List ApiCall :=
  let cacheKey := "file:" ++ st.repoFullName ++ ":" ++ path
  match st.fileCache.lookup cacheKey with
  | some cached => (Except.ok cached, st, [])
  | none =>
    let call : ApiCall := ⟨st.owner, st.repo, path⟩
    match api st.owner st.repo path with
    | ApiOutcome.ok (ContentData.arr _) =>
      (Except.error ("Failed to read file " ++ path ++ ": " ++ path ++ " is a directory, not a file"),
       st, [call])
    | ApiOutcome.ok (ContentData.obj typ content) =>
      match content with
      | some enc =>
        if typ = "file" then
          let fileText := decode enc
          (Except.ok fileText, { st with fileCache := (cacheKey, fileText) :: st.fileCache }, [call])
        else
          (Except.error ("Failed to read file " ++ path ++ ": Unable to read file: " ++ path),
           st, [call])
      | none =>
        (Except.error ("Failed to read file " ++ path ++ ": Unable to read file: " ++ path),
         st, [call])
    | ApiOutcome.err status message =>
      if status = some 404 then
        (Except.error ("File not found: " ++ path), st, [call])
      else
        (Except.error ("Failed to read file " ++ path ++ ": " ++ message), st, [call])

/-- `listDir` (src/tools/explore.ts lines 68-100). The cache key keeps the
caller's path, while the API request maps `"."` to the empty string. -/
def listDir (api : GithubApi) (st : ExploreState) (path : String) :
    Except String (List String) × ExploreState × List ApiCall :=
  let cacheKey := "dir:" ++ st.repoFullName ++ ":" ++ path
  match st.dirCache.lookup cacheKey with
  | some cached => (Except.ok cached, st, [])
  | none =>
    let apiPath := if path = "." then "" else path
    let call : ApiCall := ⟨st.owner, st.repo, apiPath⟩
    match api st.owner st.repo apiPath with
    | ApiOutcome.ok (ContentData.arr names) =>
      (Except.ok names, { st with dirCache := (cacheKey, names) :: st.dirCache }, [call])
    | ApiOutcome.ok (ContentData.obj _ _) =>
      (Except.error ("Failed to list directory " ++ path ++ ": " ++ path ++ " is a file, not a directory"),
       st, [call])
    | ApiOutcome.err status message =>
      if status = some 404 then
        (Except.error ("Directory not found: " ++ path), st, [call])
      else
        (Except.error ("Failed to list directory " ++ path ++ ": " ++ message), st, [call])

/-! ## Sandbox Manager (src/tools/docker.ts)

Temporary directory names are generated in the source as
`join(tmpdir(), prefix-Date.now()-random)`; their identity is abstracted
here as the creating prefix plus a process-wide creation index, which is
exactly the uniqueness the timestamp+randomness provides. -/

/-- A temporary directory: its name prefix and creation index. -/
structure TmpDir where
  pfx : String
  idx : Nat
  deriving DecidableEq, Repr

/-- Process-wide effects of the sandbox: the `TmpDirManager` counter and
tracked set, plus an event log of `git clone`s, files written, `docker
buildImage` requests (context dir, `src` file list, tag) and the `Binds`
lists passed to `docker.createContainer`. -/
structure TmpWorld where
  counter : Nat
  tracked : List TmpDir
  cloned : List (TmpDir × String)
  files : List (TmpDir × String × String)
  builds : List (TmpDir × List String × String)
  binds : List (List (TmpDir × String))
  deriving DecidableEq, Repr

/-- `TmpDirManager.create(prefix)`: make a fresh directory and track it. -/
def tmpCreate (w : TmpWorld) (pfx : String) : TmpDir × TmpWorld :=
  let d : TmpDir := ⟨pfx, w.counter⟩
  (d, { w with counter := w.counter + 1, tracked := w.tracked ++ [d] })

/-- One entry of the array `followProgress` resolves with: an optional
`errorDetail` object (abstracted to its `message`) and an optional
`error` string. -/
structure BuildStep where
  errorDetail : Option String
  error : Option String
  deriving DecidableEq, Repr

/-- How draining the build stream ends: `followProgress` reported an
error, or it resolved with the step array. -/
inductive BuildOutcome where
  | streamError (message : String)
  | finished (steps : List BuildStep)
  deriving DecidableEq, Repr

/-- The container-runtime backend: the build stream's outcome for a given
context directory and tag, the image inspection (`none` = image exists,
`some msg` = inspect throws), and the id assigned to a new container. -/
structure DockerApi where
  buildOutcome : TmpDir → String → BuildOutcome
  inspectImage : String → Option String
  newContainerId : String → String

/-- The closure state of `createDockerFunctions`: the optional clone URL
and the mutable `repoDir` / `containerId` variables. -/
structure DockerState where
  repoUrl : Option String
  repoDir : Option TmpDir
  containerId : Option String
  deriving DecidableEq, Repr

/-- `createDockerFunctions(repoFullName)`: derive the clone URL; both
mutable variables start unset. -/
def createDockerFunctions (repoFullName : Option String) : DockerState :=
  ⟨repoFullName.map (fun r => "https://github.com/" ++ r ++ ".git"), none, none⟩

/-- JavaScript `a || b` on an optional string: the empty string is falsy
and falls through to the fallback. -/
def jsStringOr (a : Option String) (b : String) : String :=
  match a with
  | some s => if s = "" then b else s
  | none => b

/-- `step.errorDetail || step.error`: a step counts as failed when the
`errorDetail` object is present or the `error` string is truthy. -/
def isFailedStep (s : BuildStep) : Bool :=
  s.errorDetail.isSome ||
    (match s.error with
     | some e => e ≠ ""
     | none => false)

/-- `buildImage` (src/tools/docker.ts lines 319-377): clone the repository
(when a URL was supplied) into one fresh temp directory and remember it in
`repoDir`; stage a second fresh temp directory holding only the supplied
Dockerfile and build from that context; surface stream errors and failed
build steps as `Docker build failed`; verify post-build that the image
exists, with its own `Image build completed but image ... was not found`
error; every inner throw is rewrapped by the outer catch as
`Failed to build Docker image '<name>': <message>`. -/
def buildImage (api : DockerApi) (ds : DockerState) (w : TmpWorld)
    (dockerfile imageName : String) : Except String String × DockerState × TmpWorld :=
  let cw :=
    match ds.repoUrl with
    | some url =>
      let c := tmpCreate w "repo-clone"
      ({ ds with repoDir := some c.1 }, { c.2 with cloned := c.2.cloned ++ [(c.1, url)] })
    | none => (ds, w)
  let ds1 := cw.1
  let c2 := tmpCreate cw.2 "docker-build"
  let ctx := c2.1
  let w2 := { c2.2 with files := c2.2.files ++ [(ctx, "Dockerfile", dockerfile)] }
  let w3 := { w2 with builds := w2.builds ++ [(ctx, ["Dockerfile"], imageName)] }
  match api.buildOutcome ctx imageName with
  | BuildOutcome.streamError m =>
    (Except.error ("Failed to build Docker image '" ++ imageName ++ "': Docker build failed: " ++ m),
     ds1, w3)
  | BuildOutcome.finished steps =>
    match steps.find? isFailedStep with
    | some firstError =>
      let m := jsStringOr firstError.errorDetail (jsStringOr firstError.error "Unknown build error")
      (Except.error ("Failed to build Docker image '" ++ imageName ++ "': Docker build failed: " ++ m),
       ds1, w3)
    | none =>
      match api.inspectImage imageName with
      | none => (Except.ok imageName, ds1, w3)
      | some msg =>
        (Except.error ("Failed to build Docker image '" ++ imageName
          ++ "': Image build completed but image '" ++ imageName ++ "' was not found: " ++ msg),
         ds1, w3)

/-- `createContainer` (src/tools/docker.ts lines 380-405): bind-mount the
cloned repoDir (when present) at `/workspace`, start the container, and
record its id as the instance's active container. -/
def createContainer (api : DockerApi) (ds : DockerState) (w : TmpWorld) (imageName : String) :
    Except String String × DockerState × TmpWorld :=
  let bs : List (TmpDir × String) :=
    match ds.repoDir with
    | some d => [(d, "/workspace")]
    | none => []
  let cid := api.newContainerId imageName
  (Except.ok cid, { ds with containerId := some cid }, { w with binds := w.binds ++ [bs] })

/-! ## Concrete fixtures used to evaluate the theorems on closed inputs -/

/-- A scripted model backend that issues the same single tool call on
every turn. -/
def constCallModel (n : String) (v : Val) : Model :=
  fun _ => ⟨none, [⟨some n, v⟩]⟩

/-- A scripted model backend whose every turn is a three-call batch with
the finalize call in the middle. -/
def batchModel : Model :=
  fun _ => ⟨none, [⟨some "listDir", Val.str "."⟩, ⟨some "report", Val.str "done"⟩,
                   ⟨some "executeCommand", Val.str "ls"⟩]⟩

/-- A scripted model backend that requests a tool name absent from every
tool map used here. -/
def unknownToolModel : Model :=
  fun _ => ⟨none, [⟨some "launchMissiles", Val.str "x"⟩]⟩

/-- A trivial tool implementation that echoes its arguments. -/
def echoImpl : ToolImpl := fun v => Except.ok v

/-- The reproducer's tool map with echo stand-ins for the five real
tools. -/
def demoReproTools : ToolMap :=
  reproToolMap echoImpl echoImpl echoImpl echoImpl echoImpl

/-- The filterer's tool map with echo stand-ins. -/
def demoAnalyzeTools : ToolMap :=
  analyzeToolMap echoImpl echoImpl

/-- The loop state right after seeding the conversation with an initial
prompt. -/
def seedState (p : String) : AgentState := ⟨[Content.userText p], [], [], [], 0⟩

/-- A fresh Explorer instance for `a/b`. -/
def demoExplorer : ExploreState := ⟨"a/b", "a", "b", [], []⟩

/-- A second fresh Explorer instance, for `c/d`. -/
def demoExplorer2 : ExploreState := ⟨"c/d", "c", "d", [], []⟩

/-- A backing API that rejects every request with the given status and
message. -/
def apiErr (status : Option Nat) (msg : String) : GithubApi :=
  fun _ _ _ => ApiOutcome.err status msg

/-- A backing API that serves, for every path, a file whose content names
the requesting owner. -/
def apiOwnerFile : GithubApi :=
  fun owner _ _ => ApiOutcome.ok (ContentData.obj "file" (some ("content of " ++ owner)))

/-- A backing API that serves a directory listing under `src` and a file
everywhere else. -/
def apiMixed : GithubApi :=
  fun _ _ path =>
    if path = "src" then ApiOutcome.ok (ContentData.arr ["a.txt", "b.txt"])
    else ApiOutcome.ok (ContentData.obj "file" (some "hello"))

/-- A backing API that rejects `src` with a 500 and everything else with
a 404. -/
def apiErrMixed : GithubApi :=
  fun _ _ path =>
    if path = "src" then ApiOutcome.err (some 500) "boom"
    else ApiOutcome.err (some 404) "Not Found"

/-- A container runtime on which every build succeeds and every image
exists. -/
def demoDockerApi : DockerApi :=
  ⟨fun _ _ => BuildOutcome.finished [], fun _ => none, fun _ => "cid-1"⟩

/-- A pristine process-wide sandbox world. -/
def emptyTmpWorld : TmpWorld := ⟨0, [], [], [], [], []⟩

/-! ## Helper lemmas -/

@[simp]
theorem pushResponseText_modelInvocations (st : AgentState) (t : Option String) :
    (pushResponseText st t).modelInvocations = st.modelInvocations := by
  cases t with
  | none => rfl
  | some s =>
    simp only [pushResponseText]
    split <;> rfl

@[simp]
theorem pushResponseText_contents (st : AgentState) (t : Option String) :
    (pushResponseText st t).contents = st.contents := by
  cases t with
  | none => rfl
  | some s =>
    simp only [pushResponseText]
    split <;> rfl

@[simp]
theorem pushResponseText_functionCallHistory (st : AgentState) (t : Option String) :
    (pushResponseText st t).functionCallHistory = st.functionCallHistory := by
  cases t with
  | none => rfl
  | some s =>
    simp only [pushResponseText]
    split <;> rfl

@[simp]
theorem pushResponseText_implsRun (st : AgentState) (t : Option String) :
    (pushResponseText st t).implsRun = st.implsRun := by
  cases t with
  | none => rfl
  | some s =>
    simp only [pushResponseText]
    split <;> rfl

/-- A batch without a `report` call produces no finalize payload and one
history record per call. -/
theorem processBatch_no_report (funcs : ToolMap) (calls : List FunctionCall)
    (h : ∀ c ∈ calls, c.name ≠ some "report") :
    (processBatch funcs calls).finalResult = none ∧
    (processBatch funcs calls).history.length = calls.length := by
  induction calls with
  | nil => exact ⟨rfl, rfl⟩
  | cons c rest ih =>
    have hc : ¬ c.name = some "report" := h c (List.mem_cons_self c rest)
    have hrest := ih (fun d hd => h d (List.mem_cons_of_mem _ hd))
    simp only [processBatch, if_neg hc]
    exact ⟨hrest.1, by simp [hrest.2]⟩

/-- An iteration whose batch is nonempty and yields no finalize payload
continues the loop, after exactly one model invocation. -/
theorem reproIter_next (model : Model) (funcs : ToolMap) (st : AgentState)
    (hne : (model st.contents).functionCalls ≠ [])
    (hb : (processBatch funcs (model st.contents).functionCalls).finalResult = none) :
    (reproIter model funcs st).2 = IterOutcome.next ∧
    (reproIter model funcs st).1.modelInvocations = st.modelInvocations + 1 := by
  have hemp : (model st.contents).functionCalls.isEmpty = false := by
    cases hcase : (model st.contents).functionCalls with
    | nil => exact absurd hcase hne
    | cons a l => rfl
  simp only [reproIter, hemp, Bool.false_eq_true, if_false, hb]
  simp

/-- When the model keeps returning nonempty batches free of `report`
calls, the loop spends its whole budget: one model invocation per unit of
fuel and no final result. -/
theorem reproLoopAux_no_report (model : Model) (funcs : ToolMap)
    (hne : ∀ h, (model h).functionCalls ≠ [])
    (hnr : ∀ h c, c ∈ (model h).functionCalls → c.name ≠ some "report") :
    ∀ (fuel : Nat) (st : AgentState),
      (reproLoopAux model funcs fuel st).2 = none ∧
      (reproLoopAux model funcs fuel st).1.modelInvocations = st.modelInvocations + fuel := by
  intro fuel
  induction fuel with
  | zero => intro st; exact ⟨rfl, rfl⟩
  | succ n ih =>
    intro st
    have hb := (processBatch_no_report funcs (model st.contents).functionCalls
      (hnr st.contents)).1
    have hiter := reproIter_next model funcs st (hne st.contents) hb
    simp only [reproLoopAux]
    cases hit : reproIter model funcs st with
    | mk st' out =>
      rw [hit] at hiter
      cases out with
      | noCall => exact absurd hiter.1 (by simp)
      | finalized args => exact absurd hiter.1 (by simp)
      | next =>
        have := ih st'
        refine ⟨this.1, ?_⟩
        rw [this.2, hiter.2]
        omega

/-- A batch without an `analyzeIssue` call produces no finalize payload
in the filterer. -/
theorem analyzeBatch_no_final (funcs : ToolMap) (calls : List FunctionCall)
    (h : ∀ c ∈ calls, c.name ≠ some "analyzeIssue") :
    (analyzeBatch funcs calls).finalResult = none := by
  induction calls with
  | nil => rfl
  | cons c rest ih =>
    have hc : ¬ c.name = some "analyzeIssue" := h c (List.mem_cons_self c rest)
    have hrest := ih (fun d hd => h d (List.mem_cons_of_mem _ hd))
    simp only [analyzeBatch, if_neg hc]
    exact hrest

/-- A filterer iteration whose batch is nonempty and yields no finalize
payload continues the loop, after exactly one model invocation. -/
theorem analyzeIter_next (model : Model) (funcs : ToolMap) (st : AgentState)
    (hne : (model st.contents).functionCalls ≠ [])
    (hb : (analyzeBatch funcs (model st.contents).functionCalls).finalResult = none) :
    (analyzeIter model funcs st).2 = IterOutcome.next ∧
    (analyzeIter model funcs st).1.modelInvocations = st.modelInvocations + 1 := by
  have hemp : (model st.contents).functionCalls.isEmpty = false := by
    cases hcase : (model st.contents).functionCalls with
    | nil => exact absurd hcase hne
    | cons a l => rfl
  simp only [analyzeIter, hemp, Bool.false_eq_true, if_false, hb]
  simp

/-- When the model keeps returning nonempty batches free of
`analyzeIssue` calls, the filterer loop spends its whole budget. -/
theorem analyzeLoopAux_no_final (model : Model) (funcs : ToolMap)
    (hne : ∀ h, (model h).functionCalls ≠ [])
    (hna : ∀ h c, c ∈ (model h).functionCalls → c.name ≠ some "analyzeIssue") :
    ∀ (fuel : Nat) (st : AgentState),
      (analyzeLoopAux model funcs fuel st).2 = none ∧
      (analyzeLoopAux model funcs fuel st).1.modelInvocations = st.modelInvocations + fuel := by
  intro fuel
  induction fuel with
  | zero => intro st; exact ⟨rfl, rfl⟩
  | succ n ih =>
    intro st
    have hb := analyzeBatch_no_final funcs (model st.contents).functionCalls (hna st.contents)
    have hiter := analyzeIter_next model funcs st (hne st.contents) hb
    simp only [analyzeLoopAux]
    cases hit : analyzeIter model funcs st with
    | mk st' out =>
      rw [hit] at hiter
      cases out with
      | noCall => exact absurd hiter.1 (by simp)
      | finalized args => exact absurd hiter.1 (by simp)
      | next =>
        have := ih st'
        refine ⟨this.1, ?_⟩
        rw [this.2, hiter.2]
        omega

/-- Processing a batch that reaches a `report` call: the calls before it
are all dispatched, the `report` call itself is dispatched and recorded,
the batch yields its arguments as the finalize payload, and the calls
after it contribute nothing — no conversation turns, no history records,
no implementation runs. -/
theorem processBatch_report_split (funcs : ToolMap) (pre post : List FunctionCall) (args : Val)
    (hpre : ∀ c ∈ pre, c.name ≠ some "report") :
    processBatch funcs (pre ++ FunctionCall.mk (some "report") args :: post) =
      ⟨(processBatch funcs pre).contents,
       (processBatch funcs pre).history ++
         [⟨"report", args, (dispatchCall funcs ⟨some "report", args⟩).2.1,
           (dispatchCall funcs ⟨some "report", args⟩).1⟩],
       (processBatch funcs pre).implsRun ++ (dispatchCall funcs ⟨some "report", args⟩).2.2,
       some args⟩ := by
  induction pre with
  | nil =>
    simp only [List.nil_append, processBatch, if_pos rfl]
    rfl
  | cons c cs ih =>
    have hc : ¬ c.name = some "report" := hpre c (List.mem_cons_self c cs)
    have hrec := ih (fun d hd => hpre d (List.mem_cons_of_mem _ hd))
    simp only [List.cons_append, processBatch, if_neg hc, List.append_eq, hrec]
    simp [List.append_assoc]

/-- In the filterer, a batch that reaches an `analyzeIssue` call yields
its arguments, and the finalize call itself contributes no conversation
turn and no implementation run. -/
theorem analyzeBatch_final_split (funcs : ToolMap) (pre post : List FunctionCall) (args : Val)
    (hpre : ∀ c ∈ pre, c.name ≠ some "analyzeIssue") :
    analyzeBatch funcs (pre ++ FunctionCall.mk (some "analyzeIssue") args :: post) =
      ⟨(analyzeBatch funcs pre).contents, (analyzeBatch funcs pre).implsRun, some args⟩ := by
  induction pre with
  | nil =>
    simp only [List.nil_append, analyzeBatch, if_pos rfl]
    rfl
  | cons c cs ih =>
    have hc : ¬ c.name = some "analyzeIssue" := hpre c (List.mem_cons_self c cs)
    have hrec := ih (fun d hd => hpre d (List.mem_cons_of_mem _ hd))
    simp only [List.cons_append, analyzeBatch, if_neg hc, List.append_eq, hrec]

/-- A cache hit returns the cached text, leaves the instance unchanged
and issues no backing-API request. -/
theorem readFile_cache_hit (api : GithubApi) (decode : String → String) (st : ExploreState)
    (p v : String)
    (h : st.fileCache.lookup ("file:" ++ st.repoFullName ++ ":" ++ p) = some v) :
    readFile api decode st p = (Except.ok v, st, []) := by
  simp only [readFile, h]

/-- Any single `readFile` call issues at most one backing-API request. -/
theorem readFile_calls_le_one (api : GithubApi) (decode : String → String) (st : ExploreState)
    (p : String) :
    (readFile api decode st p).2.2.length ≤ 1 := by
  simp only [readFile]
  repeat' split
  all_goals simp

/-- After a successful `readFile`, the returned text is cached under the
same key, and the instance identity is unchanged. -/
theorem readFile_ok_cache (api : GithubApi) (decode : String → String) (st : ExploreState)
    (p v : String)
    (hf : (readFile api decode st p).1 = Except.ok v) :
    ((readFile api decode st p).2.1).fileCache.lookup ("file:" ++ st.repoFullName ++ ":" ++ p)
        = some v ∧
    ((readFile api decode st p).2.1).repoFullName = st.repoFullName := by
  simp only [readFile] at hf ⊢
  split at hf
  · next v' h =>
    simp only [Except.ok.injEq] at hf
    subst hf
    exact ⟨h, rfl⟩
  · next h =>
    split at hf <;> (try split at hf) <;> (try split at hf) <;> simp_all [List.lookup]

/-- A `listDir` cache hit returns the cached listing unchanged with no
backing-API request. -/
theorem listDir_cache_hit (api : GithubApi) (st : ExploreState) (p : String) (l : List String)
    (h : st.dirCache.lookup ("dir:" ++ st.repoFullName ++ ":" ++ p) = some l) :
    listDir api st p = (Except.ok l, st, []) := by
  simp only [listDir, h]

/-- Any single `listDir` call issues at most one backing-API request. -/
theorem listDir_calls_le_one (api : GithubApi) (st : ExploreState) (p : String) :
    (listDir api st p).2.2.length ≤ 1 := by
  simp only [listDir]
  repeat' split
  all_goals simp

/-- After a successful `listDir`, the returned listing is cached under
the same key, and the instance identity is unchanged. -/
theorem listDir_ok_cache (api : GithubApi) (st : ExploreState) (p : String) (l : List String)
    (hd : (listDir api st p).1 = Except.ok l) :
    ((listDir api st p).2.1).dirCache.lookup ("dir:" ++ st.repoFullName ++ ":" ++ p)
        = some l ∧
    ((listDir api st p).2.1).repoFullName = st.repoFullName := by
  simp only [listDir] at hd ⊢
  split at hd
  · next l' h =>
    simp only [Except.ok.injEq] at hd
    subst hd
    exact ⟨h, rfl⟩
  · next h =>
    split at hd <;> (try split at hd) <;> simp_all [List.lookup]

/-- A failing `readFile` leaves the instance unchanged and has issued
exactly one backing-API request. -/
theorem readFile_error_state (api : GithubApi) (decode : String → String) (st : ExploreState)
    (p e : String) (hf : (readFile api decode st p).1 = Except.error e) :
    (readFile api decode st p).2.1 = st ∧
    (readFile api decode st p).2.2 = [⟨st.owner, st.repo, p⟩] := by
  simp only [readFile] at hf ⊢
  cases hl : st.fileCache.lookup ("file:" ++ st.repoFullName ++ ":" ++ p) with
  | some c =>
    rw [hl] at hf
    exact absurd hf (by simp)
  | none =>
    rw [hl] at hf
    cases ha : api st.owner st.repo p with
    | ok data =>
      cases data with
      | arr names => exact ⟨rfl, rfl⟩
      | obj typ content =>
        cases content with
        | none => exact ⟨rfl, rfl⟩
        | some enc =>
          by_cases ht : typ = "file"
          · rw [ha] at hf
            simp [ht] at hf
          · simp [ht]
    | err status m =>
      by_cases h4 : status = some 404 <;> simp [h4]

/-- A failing `listDir` leaves the instance unchanged and has issued
exactly one backing-API request (with `"."` mapped to the empty path). -/
theorem listDir_error_state (api : GithubApi) (st : ExploreState)
    (q e : String) (hd : (listDir api st q).1 = Except.error e) :
    (listDir api st q).2.1 = st ∧
    (listDir api st q).2.2 = [⟨st.owner, st.repo, if q = "." then "" else q⟩] := by
  simp only [listDir] at hd ⊢
  cases hl : st.dirCache.lookup ("dir:" ++ st.repoFullName ++ ":" ++ q) with
  | some c =>
    rw [hl] at hd
    exact absurd hd (by simp)
  | none =>
    rw [hl] at hd
    cases ha : api st.owner st.repo (if q = "." then "" else q) with
    | ok data =>
      cases data with
      | arr names =>
        rw [ha] at hd
        simp at hd
      | obj typ content => exact ⟨rfl, rfl⟩
    | err status m =>
      by_cases h4 : status = some 404 <;> simp [h4]

/-! ## Claims -/

/-- C1: if the model never issues the `report` finalize call (and keeps
requesting tools) for the configured maximum of `n` iterations, the
reproduction loop terminates with a null result after exactly `n` model
invocations — not `n + 1` — and the max-iterations warning is logged. -/
theorem repro_budget_exhaustion (model : Model) (funcs : ToolMap) (prompt : String) (n : Nat)
    (hne : ∀ h, (model h).functionCalls ≠ [])
    (hnr : ∀ h c, c ∈ (model h).functionCalls → c.name ≠ some "report") :
    (reproduceWithGemini model funcs prompt n).finalResult = none ∧
    (reproduceWithGemini model funcs prompt n).modelInvocations = n ∧
    (reproduceWithGemini model funcs prompt n).warned = true := by
  have h := reproLoopAux_no_report model funcs hne hnr n ⟨[Content.userText prompt], [], [], [], 0⟩
  simp only [reproduceWithGemini]
  exact ⟨h.1, by simp [h.2], by simp [h.1]⟩

/-- Witness for C1: a scripted model that always asks for `listDir` makes
the loop spend its budget of 3 iterations. -/
theorem repro_budget_exhaustion_witness :
    (reproduceWithGemini (constCallModel "listDir" (Val.str ".")) demoReproTools "p" 3).finalResult
        = none ∧
    (reproduceWithGemini (constCallModel "listDir" (Val.str ".")) demoReproTools "p" 3).modelInvocations
        = 3 ∧
    (reproduceWithGemini (constCallModel "listDir" (Val.str ".")) demoReproTools "p" 3).warned
        = true :=
  repro_budget_exhaustion _ _ _ 3
    (fun _ => by simp [constCallModel])
    (fun _ c hc => by
      simp only [constCallModel, List.mem_singleton] at hc
      subst hc
      decide)

/-- C2 counterexample: exhausting the budget is NOT a non-error terminal
state in both variants — the classification agent, driven by a model that
always requests `readFile` and never finalizes, raises an error to its
caller. -/
theorem filterer_budget_exhaustion_raises :
    (analyzeIssueWithGemini (constCallModel "readFile" (Val.str "x")) demoAnalyzeTools "p").1
      = Except.error "AI completed analysis without calling analyzeIssue after 10 iterations" := by
  rfl

/-- C2 (amended): for the reproduction agent, exhausting the iteration
budget without a finalize call is not an error — the run ends with a null
result and a logged warning. The classification agent instead raises the
error `AI completed analysis without calling analyzeIssue after 10
iterations` to its caller, after exactly its 10 model invocations. -/
theorem budget_exhaustion_by_variant (m1 m2 : Model) (funcs1 funcs2 : ToolMap)
    (p1 p2 : String) (n : Nat)
    (hne1 : ∀ h, (m1 h).functionCalls ≠ [])
    (hnr : ∀ h c, c ∈ (m1 h).functionCalls → c.name ≠ some "report")
    (hne2 : ∀ h, (m2 h).functionCalls ≠ [])
    (hna : ∀ h c, c ∈ (m2 h).functionCalls → c.name ≠ some "analyzeIssue") :
    ((reproduceWithGemini m1 funcs1 p1 n).finalResult = none ∧
     (reproduceWithGemini m1 funcs1 p1 n).warned = true) ∧
    ((analyzeIssueWithGemini m2 funcs2 p2).1 =
       Except.error "AI completed analysis without calling analyzeIssue after 10 iterations" ∧
     (analyzeIssueWithGemini m2 funcs2 p2).2.modelInvocations = 10) := by
  have h1 := reproLoopAux_no_report m1 funcs1 hne1 hnr n ⟨[Content.userText p1], [], [], [], 0⟩
  have h2 := analyzeLoopAux_no_final m2 funcs2 hne2 hna analyzeMaxIterations
    ⟨[Content.userText p2], [], [], [], 0⟩
  refine ⟨⟨?_, ?_⟩, ?_, ?_⟩
  · simpa only [reproduceWithGemini] using h1.1
  · simp only [reproduceWithGemini]
    simp [h1.1]
  · simp only [analyzeIssueWithGemini, h2.1]
    rfl
  · simp only [analyzeIssueWithGemini]
    rcases hq : analyzeLoopAux m2 funcs2 analyzeMaxIterations ⟨[Content.userText p2], [], [], [], 0⟩
      with ⟨st', fin⟩
    rw [hq] at h2
    cases fin with
    | none => simpa using h2.2
    | some v => exact absurd h2.1 (by simp)

/-- Witness for C2: scripted models that always request a repository read
exhaust both variants' budgets. -/
theorem budget_exhaustion_by_variant_witness :
    (((reproduceWithGemini (constCallModel "listDir" (Val.str "x")) demoReproTools "p" 2).finalResult
        = none ∧
      (reproduceWithGemini (constCallModel "listDir" (Val.str "x")) demoReproTools "p" 2).warned
        = true) ∧
     ((analyzeIssueWithGemini (constCallModel "listDir" (Val.str "x")) demoAnalyzeTools "q").1 =
        Except.error "AI completed analysis without calling analyzeIssue after 10 iterations" ∧
      (analyzeIssueWithGemini (constCallModel "listDir" (Val.str "x")) demoAnalyzeTools "q").2.modelInvocations
        = 10)) :=
  budget_exhaustion_by_variant _ _ _ _ _ _ 2
    (fun _ => by simp [constCallModel])
    (fun _ c hc => by
      simp only [constCallModel, List.mem_singleton] at hc
      subst hc
      decide)
    (fun _ => by simp [constCallModel])
    (fun _ c hc => by
      simp only [constCallModel, List.mem_singleton] at hc
      subst hc
      decide)

/-- C3: when the model's batch contains the `report` finalize call, the
loop terminates at once with that call's arguments as the terminal result;
the calls before it are dispatched (one history record each, plus one for
the report call itself), and no call after the finalize call in the same
batch is dispatched — no history record and no implementation run comes
from the tail. -/
theorem finalize_in_batch_returns_immediately (model : Model) (funcs : ToolMap)
    (st : AgentState) (rem : Nat) (pre post : List FunctionCall) (args : Val)
    (hresp : (model st.contents).functionCalls = pre ++ FunctionCall.mk (some "report") args :: post)
    (hpre : ∀ c ∈ pre, c.name ≠ some "report") :
    (reproIter model funcs st).2 = IterOutcome.finalized args ∧
    (reproLoopAux model funcs (rem + 1) st).2 = some args ∧
    (reproIter model funcs st).1.functionCallHistory.length
      = st.functionCallHistory.length + (pre.length + 1) ∧
    (reproIter model funcs st).1.implsRun
      = st.implsRun ++ ((processBatch funcs pre).implsRun
        ++ (dispatchCall funcs ⟨some "report", args⟩).2.2) := by
  have hemp : (pre ++ FunctionCall.mk (some "report") args :: post).isEmpty = false := by
    cases pre <;> rfl
  have hsplit := processBatch_report_split funcs pre post args hpre
  have hlen := (processBatch_no_report funcs pre hpre).2
  have hiter : (reproIter model funcs st).2 = IterOutcome.finalized args ∧
      (reproIter model funcs st).1.functionCallHistory.length
        = st.functionCallHistory.length + (pre.length + 1) ∧
      (reproIter model funcs st).1.implsRun
        = st.implsRun ++ ((processBatch funcs pre).implsRun
          ++ (dispatchCall funcs ⟨some "report", args⟩).2.2) := by
    simp only [reproIter, hresp, hemp, Bool.false_eq_true, if_false, hsplit]
    refine ⟨by trivial, by simp [hlen], by simp⟩
  refine ⟨hiter.1, ?_, hiter.2⟩
  simp only [reproLoopAux]
  cases hit : reproIter model funcs st with
  | mk st' out =>
    rw [hit] at hiter
    cases out with
    | noCall => exact absurd hiter.1 (by simp)
    | next => exact absurd hiter.1 (by simp)
    | finalized a =>
      have : a = args := by simpa using hiter.1
      rw [this]

/-- Witness for C3: a three-call batch `[listDir, report, executeCommand]`
ends the run with the report's arguments; `listDir` and `report` are
dispatched, `executeCommand` is not. -/
theorem finalize_in_batch_returns_immediately_witness :
    (reproIter batchModel demoReproTools (seedState "p")).2
        = IterOutcome.finalized (Val.str "done") ∧
    (reproLoopAux batchModel demoReproTools (4 + 1) (seedState "p")).2
        = some (Val.str "done") ∧
    (reproIter batchModel demoReproTools (seedState "p")).1.functionCallHistory.length
        = (seedState "p").functionCallHistory.length
          + ([FunctionCall.mk (some "listDir") (Val.str ".")].length + 1) ∧
    (reproIter batchModel demoReproTools (seedState "p")).1.implsRun
        = (seedState "p").implsRun
          ++ ((processBatch demoReproTools [FunctionCall.mk (some "listDir") (Val.str ".")]).implsRun
          ++ (dispatchCall demoReproTools ⟨some "report", Val.str "done"⟩).2.2) :=
  finalize_in_batch_returns_immediately batchModel demoReproTools
    (seedState "p") 4
    [FunctionCall.mk (some "listDir") (Val.str ".")]
    [FunctionCall.mk (some "executeCommand") (Val.str "ls")] (Val.str "done")
    rfl
    (fun c hc => by
      simp only [List.mem_singleton] at hc
      subst hc
      decide)

/-- C4: a tool call whose dispatch throws — including a request for a
name absent from the tool map, which fails with the registry's
`Function '<name>' not found` error — yields a history record tagged
`error` carrying `Error: <message>`, and the loop proceeds to the next
call and iteration instead of aborting. -/
theorem tool_errors_folded (model : Model) (funcs : ToolMap) (st : AgentState)
    (c : FunctionCall) (rest : List FunctionCall) (n msg name2 : String) (args2 : Val)
    (hname : c.name = some n) (hn : n ≠ "")
    (hfail : runAiFunction funcs n c.args = Except.error msg)
    (hbatch : (model st.contents).functionCalls = c :: rest)
    (hnorep : ∀ d ∈ c :: rest, d.name ≠ some "report")
    (hmiss : funcs.lookup name2 = none) :
    (processBatch funcs (c :: rest)).history
      = ⟨n, c.args, Val.str ("Error: " ++ msg), HKey.error⟩ :: (processBatch funcs rest).history ∧
    (reproIter model funcs st).2 = IterOutcome.next ∧
    runAiFunction funcs name2 args2 = Except.error ("Function '" ++ name2 ++ "' not found") := by
  have hcrep : ¬ c.name = some "report" := hnorep c (List.mem_cons_self c rest)
  have hmiss2 : missingName (some n) = false := by
    simpa [missingName] using hn
  have hdisp : dispatchCall funcs c
      = (HKey.error, Val.str ("Error: " ++ msg), if (funcs.lookup n).isSome then [n] else []) := by
    simp only [dispatchCall, hname, hmiss2, Bool.false_eq_true, if_false, Option.getD_some, hfail]
  refine ⟨?_, ?_, ?_⟩
  · simp only [processBatch, if_neg hcrep, hdisp]
    simp [nameOrUnknown, hname, hn]
  · exact (reproIter_next model funcs st
      (by rw [hbatch]; exact List.cons_ne_nil c rest)
      (by rw [hbatch]
          exact (processBatch_no_report funcs (c :: rest) hnorep).1)).1
  · simp only [runAiFunction, hmiss]

/-- Witness for C4: the model requests the undeclared tool
`launchMissiles`; its dispatch is folded into history as an error record
and the loop moves on. -/
theorem tool_errors_folded_witness :
    (processBatch demoReproTools [FunctionCall.mk (some "launchMissiles") (Val.str "x")]).history
      = ⟨"launchMissiles", Val.str "x",
         Val.str ("Error: " ++ "Function 'launchMissiles' not found"), HKey.error⟩
        :: (processBatch demoReproTools []).history ∧
    (reproIter unknownToolModel demoReproTools (seedState "p")).2 = IterOutcome.next ∧
    runAiFunction demoReproTools "launchMissiles" (Val.str "x")
      = Except.error ("Function '" ++ "launchMissiles" ++ "' not found") :=
  tool_errors_folded unknownToolModel demoReproTools (seedState "p")
    ⟨some "launchMissiles", Val.str "x"⟩ [] "launchMissiles"
    "Function 'launchMissiles' not found" "launchMissiles" (Val.str "x")
    rfl (by decide) rfl rfl
    (fun d hd => by
      simp only [List.mem_singleton] at hd
      subst hd
      decide)
    rfl

/-- C9 counterexample: in the reproduction loop a `report` call is NOT
merely intercepted by name — it is dispatched through the registry, so its
(no-op) implementation runs and its undefined output is recorded in the
history before the loop terminates with the call's arguments. -/
theorem report_dispatch_runs_implementation :
    (reproduceWithGemini (constCallModel "report" (Val.str "payload")) demoReproTools "p" 5).implsRun
        = ["report"] ∧
    (reproduceWithGemini (constCallModel "report" (Val.str "payload")) demoReproTools "p" 5).finalResult
        = some (Val.str "payload") ∧
    (reproduceWithGemini (constCallModel "report" (Val.str "payload")) demoReproTools "p" 5).functionCallHistory
        = [⟨"report", Val.str "payload", Val.undef, HKey.output⟩] := by
  decide

/-- C9 (amended): the finalize tools (`report`, `analyzeIssue`) have no
real implementation — invoking them is a no-op returning undefined. The
classification loop intercepts an `analyzeIssue` call by name BEFORE
dispatch, so the finalize call runs no tool implementation; the
reproduction loop instead dispatches the `report` call through the
registry like any other tool — running its no-op implementation and
recording its undefined output in history — before terminating with the
call's arguments. -/
theorem finalize_interception_by_variant (funcs : ToolMap) (model : Model) (st : AgentState)
    (pre post : List FunctionCall) (args v : Val)
    (i1 i2 i3 i4 i5 : ToolImpl)
    (hpre : ∀ c ∈ pre, c.name ≠ some "analyzeIssue")
    (hresp : (model st.contents).functionCalls
      = pre ++ FunctionCall.mk (some "analyzeIssue") args :: post) :
    reportImpl v = Except.ok Val.undef ∧
    analyzeIssueImpl v = Except.ok Val.undef ∧
    (analyzeIter model funcs st).2 = IterOutcome.finalized args ∧
    (analyzeIter model funcs st).1.implsRun = st.implsRun ++ (analyzeBatch funcs pre).implsRun ∧
    (processBatch (reproToolMap i1 i2 i3 i4 i5) [FunctionCall.mk (some "report") args]).implsRun
        = ["report"] ∧
    (processBatch (reproToolMap i1 i2 i3 i4 i5) [FunctionCall.mk (some "report") args]).history
        = [⟨"report", args, Val.undef, HKey.output⟩] := by
  have hemp : (pre ++ FunctionCall.mk (some "analyzeIssue") args :: post).isEmpty = false := by
    cases pre <;> rfl
  have hsplit := analyzeBatch_final_split funcs pre post args hpre
  refine ⟨rfl, rfl, ?_, ?_, ?_, ?_⟩
  · simp only [analyzeIter, hresp, hemp, Bool.false_eq_true, if_false, hsplit]
  · simp only [analyzeIter, hresp, hemp, Bool.false_eq_true, if_false, hsplit]
  · rfl
  · rfl

/-- Witness for C9: the filterer driven by a model that finalizes at once
terminates without entering any implementation, while the reproducer's
batch processing runs the no-op `report` implementation. -/
theorem finalize_interception_by_variant_witness :
    reportImpl (Val.str "w") = Except.ok Val.undef ∧
    analyzeIssueImpl (Val.str "w") = Except.ok Val.undef ∧
    (analyzeIter (constCallModel "analyzeIssue" (Val.str "v")) demoAnalyzeTools (seedState "q")).2
        = IterOutcome.finalized (Val.str "v") ∧
    (analyzeIter (constCallModel "analyzeIssue" (Val.str "v")) demoAnalyzeTools (seedState "q")).1.implsRun
        = (seedState "q").implsRun ++ (analyzeBatch demoAnalyzeTools []).implsRun ∧
    (processBatch (reproToolMap echoImpl echoImpl echoImpl echoImpl echoImpl)
        [FunctionCall.mk (some "report") (Val.str "v")]).implsRun = ["report"] ∧
    (processBatch (reproToolMap echoImpl echoImpl echoImpl echoImpl echoImpl)
        [FunctionCall.mk (some "report") (Val.str "v")]).history
        = [⟨"report", Val.str "v", Val.undef, HKey.output⟩] :=
  finalize_interception_by_variant demoAnalyzeTools
    (constCallModel "analyzeIssue" (Val.str "v")) (seedState "q")
    [] [] (Val.str "v") (Val.str "w") echoImpl echoImpl echoImpl echoImpl echoImpl
    (fun c hc => absurd hc (List.not_mem_nil c))
    rfl

/-- C5 counterexample: repeated `readFile` calls for the same path are
NOT always served by at most one backing-API invocation — when the
backend rejects the path (404), both of two repeated calls contact the
API. -/
theorem failing_reads_hit_api_repeatedly :
    ¬ (((readFile (apiErr (some 404) "Not Found") id demoExplorer "x.txt").2.2).length
        + ((readFile (apiErr (some 404) "Not Found") id
            (readFile (apiErr (some 404) "Not Found") id demoExplorer "x.txt").2.1 "x.txt").2.2).length
        ≤ 1) := by
  decide

/-- C5 (amended): a single `readFile`/`listDir` call invokes the backing
API at most once, and once a call for a (repository, path) has SUCCEEDED,
every repeated call is served from the cache: it returns the identical
result, leaves the instance unchanged, and issues no backing-API request.
(Failed calls are not cached and contact the API again; see the
counterexample.) -/
theorem explorer_cache_idempotent (api : GithubApi) (decode : String → String)
    (stf std : ExploreState) (p q v : String) (l : List String)
    (hf : (readFile api decode stf p).1 = Except.ok v)
    (hd : (listDir api std q).1 = Except.ok l) :
    (readFile api decode stf p).2.2.length ≤ 1 ∧
    readFile api decode (readFile api decode stf p).2.1 p
      = (Except.ok v, (readFile api decode stf p).2.1, []) ∧
    (listDir api std q).2.2.length ≤ 1 ∧
    listDir api (listDir api std q).2.1 q
      = (Except.ok l, (listDir api std q).2.1, []) := by
  have h1 := readFile_ok_cache api decode stf p v hf
  have h2 := listDir_ok_cache api std q l hd
  refine ⟨readFile_calls_le_one api decode stf p, ?_,
    listDir_calls_le_one api std q, ?_⟩
  · exact readFile_cache_hit api decode _ p v (by rw [h1.2]; exact h1.1)
  · exact listDir_cache_hit api _ q l (by rw [h2.2]; exact h2.1)

/-- Witness for C5 (amended): after successfully reading `README.md` and
listing `src` on a fresh instance, the repeated calls are cache hits. -/
theorem explorer_cache_idempotent_witness :
    (readFile apiMixed id demoExplorer "README.md").2.2.length ≤ 1 ∧
    readFile apiMixed id (readFile apiMixed id demoExplorer "README.md").2.1 "README.md"
      = (Except.ok "hello", (readFile apiMixed id demoExplorer "README.md").2.1, []) ∧
    (listDir apiMixed demoExplorer "src").2.2.length ≤ 1 ∧
    listDir apiMixed (listDir apiMixed demoExplorer "src").2.1 "src"
      = (Except.ok ["a.txt", "b.txt"], (listDir apiMixed demoExplorer "src").2.1, []) :=
  explorer_cache_idempotent apiMixed id demoExplorer demoExplorer
    "README.md" "src" "hello" ["a.txt", "b.txt"] rfl rfl

/-- C6: on a cache miss, a backend rejection with status 404 yields
exactly `File not found: <path>` from `readFile` and `Directory not
found: <path>` from `listDir`; any other backend rejection yields
`Failed to read file <path>: <message>` / `Failed to list directory
<path>: <message>`. -/
theorem explorer_error_messages (api : GithubApi) (decode : String → String)
    (st : ExploreState) (p q : String) (s1 s2 : Option Nat) (m1 m2 : String)
    (hcf : st.fileCache.lookup ("file:" ++ st.repoFullName ++ ":" ++ p) = none)
    (hcd : st.dirCache.lookup ("dir:" ++ st.repoFullName ++ ":" ++ q) = none)
    (hapi1 : api st.owner st.repo p = ApiOutcome.err s1 m1)
    (hapi2 : api st.owner st.repo (if q = "." then "" else q) = ApiOutcome.err s2 m2) :
    (s1 = some 404 → (readFile api decode st p).1 = Except.error ("File not found: " ++ p)) ∧
    (s1 ≠ some 404 →
      (readFile api decode st p).1 = Except.error ("Failed to read file " ++ p ++ ": " ++ m1)) ∧
    (s2 = some 404 → (listDir api st q).1 = Except.error ("Directory not found: " ++ q)) ∧
    (s2 ≠ some 404 →
      (listDir api st q).1 = Except.error ("Failed to list directory " ++ q ++ ": " ++ m2)) := by
  refine ⟨?_, ?_, ?_, ?_⟩ <;> intro h
  · simp only [readFile, hcf, hapi1, if_pos h]
  · simp only [readFile, hcf, hapi1, if_neg h]
  · simp only [listDir, hcd, hapi2, if_pos h]
  · simp only [listDir, hcd, hapi2, if_neg h]

/-- Witness for C6: on a fresh instance, a 404 on `x.txt` gives the exact
not-found message and a 500 on `src` the wrapped generic message. -/
theorem explorer_error_messages_witness :
    ((some 404 = some (404 : Nat) →
      (readFile apiErrMixed id demoExplorer "x.txt").1
        = Except.error ("File not found: " ++ "x.txt")) ∧
     (some 404 ≠ some (404 : Nat) →
      (readFile apiErrMixed id demoExplorer "x.txt").1
        = Except.error ("Failed to read file " ++ "x.txt" ++ ": " ++ "Not Found")) ∧
     (some 500 = some (404 : Nat) →
      (listDir apiErrMixed demoExplorer "src").1
        = Except.error ("Directory not found: " ++ "src")) ∧
     (some 500 ≠ some (404 : Nat) →
      (listDir apiErrMixed demoExplorer "src").1
        = Except.error ("Failed to list directory " ++ "src" ++ ": " ++ "boom"))) :=
  explorer_error_messages apiErrMixed id demoExplorer "x.txt" "src"
    (some 404) (some 500) "Not Found" "boom" rfl rfl rfl rfl

/-- C7: Explorer instances never share cache state — an operation on one
instance takes and returns only that instance's own state, so for two
freshly constructed instances over different repositories, reading the
same path on each hits the backing API independently (one request per
instance, addressed to that instance's own owner/repo) and returns each
repository's own content. -/
theorem explorer_instance_isolation (api : GithubApi) (decode : String → String)
    (r1 r2 : String) (st1 st2 : ExploreState) (p c1 c2 : String)
    (_hne : r1 ≠ r2)
    (h1 : createExploreFunctions r1 = Except.ok st1)
    (h2 : createExploreFunctions r2 = Except.ok st2)
    (hapi1 : api st1.owner st1.repo p = ApiOutcome.ok (ContentData.obj "file" (some c1)))
    (hapi2 : api st2.owner st2.repo p = ApiOutcome.ok (ContentData.obj "file" (some c2))) :
    (readFile api decode st1 p).1 = Except.ok (decode c1) ∧
    (readFile api decode st2 p).1 = Except.ok (decode c2) ∧
    (readFile api decode st1 p).2.2 = [⟨st1.owner, st1.repo, p⟩] ∧
    (readFile api decode st2 p).2.2 = [⟨st2.owner, st2.repo, p⟩] := by
  have hc1 : st1.fileCache = [] := by
    simp only [createExploreFunctions] at h1
    split at h1
    · exact absurd h1 (by simp)
    · injection h1 with h
      rw [← h]
  have hc2 : st2.fileCache = [] := by
    simp only [createExploreFunctions] at h2
    split at h2
    · exact absurd h2 (by simp)
    · injection h2 with h
      rw [← h]
  refine ⟨?_, ?_, ?_, ?_⟩ <;>
    simp [readFile, hc1, hc2, List.lookup_nil, hapi1, hapi2]

/-- Witness for C7: fresh instances for `a/b` and `c/d` read `shared.txt`
independently, each getting its own owner's content. -/
theorem explorer_instance_isolation_witness :
    (readFile apiOwnerFile id demoExplorer "shared.txt").1
        = Except.ok (id ("content of " ++ "a")) ∧
    (readFile apiOwnerFile id demoExplorer2 "shared.txt").1
        = Except.ok (id ("content of " ++ "c")) ∧
    (readFile apiOwnerFile id demoExplorer "shared.txt").2.2
        = [⟨demoExplorer.owner, demoExplorer.repo, "shared.txt"⟩] ∧
    (readFile apiOwnerFile id demoExplorer2 "shared.txt").2.2
        = [⟨demoExplorer2.owner, demoExplorer2.repo, "shared.txt"⟩] :=
  explorer_instance_isolation apiOwnerFile id "a/b" "c/d" demoExplorer demoExplorer2
    "shared.txt" ("content of " ++ "a") ("content of " ++ "c")
    (by decide) (by rfl) (by rfl) rfl rfl

/-- C10: a failing `readFile`/`listDir` call leaves the Explorer cache
unchanged — only a successful fetch stores an entry — so repeating the
call is the very same computation and contacts the backing API again
(exactly one request each time) rather than replaying a cached failure. -/
theorem failed_calls_not_cached (api : GithubApi) (decode : String → String)
    (st : ExploreState) (p q e1 e2 : String)
    (hf : (readFile api decode st p).1 = Except.error e1)
    (hd : (listDir api st q).1 = Except.error e2) :
    (readFile api decode st p).2.1 = st ∧
    (readFile api decode st p).2.2 = [⟨st.owner, st.repo, p⟩] ∧
    readFile api decode (readFile api decode st p).2.1 p = readFile api decode st p ∧
    (listDir api st q).2.1 = st ∧
    (listDir api st q).2.2 = [⟨st.owner, st.repo, if q = "." then "" else q⟩] ∧
    listDir api (listDir api st q).2.1 q = listDir api st q := by
  have h1 := readFile_error_state api decode st p e1 hf
  have h2 := listDir_error_state api st q e2 hd
  exact ⟨h1.1, h1.2, by rw [h1.1], h2.1, h2.2, by rw [h2.1]⟩

/-- Witness for C10: a 404 on `x.txt` and a 500 on `src` leave the fresh
instance untouched, and reruns issue fresh backing-API requests. -/
theorem failed_calls_not_cached_witness :
    (readFile apiErrMixed id demoExplorer "x.txt").2.1 = demoExplorer ∧
    (readFile apiErrMixed id demoExplorer "x.txt").2.2
        = [⟨demoExplorer.owner, demoExplorer.repo, "x.txt"⟩] ∧
    readFile apiErrMixed id (readFile apiErrMixed id demoExplorer "x.txt").2.1 "x.txt"
        = readFile apiErrMixed id demoExplorer "x.txt" ∧
    (listDir apiErrMixed demoExplorer "src").2.1 = demoExplorer ∧
    (listDir apiErrMixed demoExplorer "src").2.2
        = [⟨demoExplorer.owner, demoExplorer.repo, if "src" = "." then "" else "src"⟩] ∧
    listDir apiErrMixed (listDir apiErrMixed demoExplorer "src").2.1 "src"
        = listDir apiErrMixed demoExplorer "src" :=
  failed_calls_not_cached apiErrMixed id demoExplorer "x.txt" "src"
    ("File not found: " ++ "x.txt") ("Failed to list directory " ++ "src" ++ ": " ++ "boom")
    rfl rfl

/-- Whatever the build outcome, `buildImage` on an instance with a clone
URL performs the same state effects: clone into the first fresh temp dir
(remembered as `repoDir`), stage the Dockerfile alone in the second fresh
temp dir, and request the build with that second dir as the context. -/
theorem buildImage_state (api : DockerApi) (ds : DockerState) (w : TmpWorld)
    (dockerfile imageName url : String) (hurl : ds.repoUrl = some url) :
    (buildImage api ds w dockerfile imageName).2.1
      = { ds with repoDir := some ⟨"repo-clone", w.counter⟩ } ∧
    (buildImage api ds w dockerfile imageName).2.2
      = { counter := w.counter + 1 + 1,
          tracked := w.tracked ++ [⟨"repo-clone", w.counter⟩] ++ [⟨"docker-build", w.counter + 1⟩],
          cloned := w.cloned ++ [(⟨"repo-clone", w.counter⟩, url)],
          files := w.files ++ [(⟨"docker-build", w.counter + 1⟩, "Dockerfile", dockerfile)],
          builds := w.builds ++ [(⟨"docker-build", w.counter + 1⟩, ["Dockerfile"], imageName)],
          binds := w.binds } := by
  simp only [buildImage, tmpCreate, hurl]
  refine ⟨?_, ?_⟩ <;> (repeat' split) <;> rfl

/-- C8: with a source repository supplied, `buildImage` clones it into a
fresh temp directory that becomes the bind-mountable `repoDir` — not the
build context; the build context is a second, distinct fresh temp
directory holding only the supplied Dockerfile, and it alone is passed to
the runtime's build; after a clean build the operation verifies the image
exists, returning the image name on success and a distinct
`Image build completed but image ... was not found` error (wrapped by the
outer catch) when the runtime reports it missing; a later
`createContainer` bind-mounts the clone directory at `/workspace`. -/
theorem buildImage_spec (api : DockerApi) (w : TmpWorld)
    (repoFullName dockerfile imageName msg : String) (steps : List BuildStep)
    (hw : ∀ d ∈ w.tracked, d.idx < w.counter)
    (hfin : api.buildOutcome ⟨"docker-build", w.counter + 1⟩ imageName
      = BuildOutcome.finished steps)
    (hnofail : steps.find? isFailedStep = none) :
    (buildImage api (createDockerFunctions (some repoFullName)) w dockerfile imageName).2.1.repoDir
        = some ⟨"repo-clone", w.counter⟩ ∧
    (buildImage api (createDockerFunctions (some repoFullName)) w dockerfile imageName).2.2.cloned
        = w.cloned ++ [(⟨"repo-clone", w.counter⟩,
            "https://github.com/" ++ repoFullName ++ ".git")] ∧
    (⟨"repo-clone", w.counter⟩ : TmpDir) ∉ w.tracked ∧
    (⟨"docker-build", w.counter + 1⟩ : TmpDir) ∉ w.tracked ∧
    (⟨"repo-clone", w.counter⟩ : TmpDir) ≠ (⟨"docker-build", w.counter + 1⟩ : TmpDir) ∧
    (buildImage api (createDockerFunctions (some repoFullName)) w dockerfile imageName).2.2.builds
        = w.builds ++ [(⟨"docker-build", w.counter + 1⟩, ["Dockerfile"], imageName)] ∧
    (buildImage api (createDockerFunctions (some repoFullName)) w dockerfile imageName).2.2.files
        = w.files ++ [(⟨"docker-build", w.counter + 1⟩, "Dockerfile", dockerfile)] ∧
    (api.inspectImage imageName = none →
      (buildImage api (createDockerFunctions (some repoFullName)) w dockerfile imageName).1
        = Except.ok imageName) ∧
    (api.inspectImage imageName = some msg →
      (buildImage api (createDockerFunctions (some repoFullName)) w dockerfile imageName).1
        = Except.error ("Failed to build Docker image '" ++ imageName
            ++ "': Image build completed but image '" ++ imageName ++ "' was not found: "
            ++ msg)) ∧
    (createContainer api
        (buildImage api (createDockerFunctions (some repoFullName)) w dockerfile imageName).2.1
        (buildImage api (createDockerFunctions (some repoFullName)) w dockerfile imageName).2.2
        imageName).2.2.binds
      = (buildImage api (createDockerFunctions (some repoFullName)) w dockerfile imageName).2.2.binds
        ++ [[(⟨"repo-clone", w.counter⟩, "/workspace")]] := by
  have hurl : (createDockerFunctions (some repoFullName)).repoUrl
      = some ("https://github.com/" ++ repoFullName ++ ".git") := rfl
  have hstate := buildImage_state api (createDockerFunctions (some repoFullName)) w
    dockerfile imageName ("https://github.com/" ++ repoFullName ++ ".git") hurl
  refine ⟨?_, ?_, ?_, ?_, ?_, ?_, ?_, ?_, ?_, ?_⟩
  · rw [hstate.1]
  · rw [hstate.2]
  · intro hmem
    exact absurd (hw _ hmem) (by simp)
  · intro hmem
    exact absurd (hw _ hmem) (by simp)
  · simp
  · rw [hstate.2]
  · rw [hstate.2]
  · intro h
    simp only [buildImage, tmpCreate, hurl, hfin, hnofail, h]
  · intro h
    simp only [buildImage, tmpCreate, hurl, hfin, hnofail, h]
  · rw [hstate.1, hstate.2]
    simp [createContainer]

/-- Witness for C8: building `img` for repository `a/b` on a pristine
world with an always-succeeding runtime. -/
theorem buildImage_spec_witness :
    (buildImage demoDockerApi (createDockerFunctions (some "a/b")) emptyTmpWorld
        "FROM scratch" "img").2.1.repoDir
        = some ⟨"repo-clone", emptyTmpWorld.counter⟩ ∧
    (buildImage demoDockerApi (createDockerFunctions (some "a/b")) emptyTmpWorld
        "FROM scratch" "img").2.2.cloned
        = emptyTmpWorld.cloned ++ [(⟨"repo-clone", emptyTmpWorld.counter⟩,
            "https://github.com/" ++ "a/b" ++ ".git")] ∧
    (⟨"repo-clone", emptyTmpWorld.counter⟩ : TmpDir) ∉ emptyTmpWorld.tracked ∧
    (⟨"docker-build", emptyTmpWorld.counter + 1⟩ : TmpDir) ∉ emptyTmpWorld.tracked ∧
    (⟨"repo-clone", emptyTmpWorld.counter⟩ : TmpDir)
        ≠ (⟨"docker-build", emptyTmpWorld.counter + 1⟩ : TmpDir) ∧
    (buildImage demoDockerApi (createDockerFunctions (some "a/b")) emptyTmpWorld
        "FROM scratch" "img").2.2.builds
        = emptyTmpWorld.builds
          ++ [(⟨"docker-build", emptyTmpWorld.counter + 1⟩, ["Dockerfile"], "img")] ∧
    (buildImage demoDockerApi (createDockerFunctions (some "a/b")) emptyTmpWorld
        "FROM scratch" "img").2.2.files
        = emptyTmpWorld.files
          ++ [(⟨"docker-build", emptyTmpWorld.counter + 1⟩, "Dockerfile", "FROM scratch")] ∧
    (demoDockerApi.inspectImage "img" = none →
      (buildImage demoDockerApi (createDockerFunctions (some "a/b")) emptyTmpWorld
        "FROM scratch" "img").1 = Except.ok "img") ∧
    (demoDockerApi.inspectImage "img" = some "no such image" →
      (buildImage demoDockerApi (createDockerFunctions (some "a/b")) emptyTmpWorld
        "FROM scratch" "img").1
        = Except.error ("Failed to build Docker image '" ++ "img"
            ++ "': Image build completed but image '" ++ "img" ++ "' was not found: "
            ++ "no such image")) ∧
    (createContainer demoDockerApi
        (buildImage demoDockerApi (createDockerFunctions (some "a/b")) emptyTmpWorld
          "FROM scratch" "img").2.1
        (buildImage demoDockerApi (createDockerFunctions (some "a/b")) emptyTmpWorld
          "FROM scratch" "img").2.2
        "img").2.2.binds
      = (buildImage demoDockerApi (createDockerFunctions (some "a/b")) emptyTmpWorld
          "FROM scratch" "img").2.2.binds
        ++ [[(⟨"repo-clone", emptyTmpWorld.counter⟩, "/workspace")]] :=
  buildImage_spec demoDockerApi emptyTmpWorld "a/b" "FROM scratch" "img" "no such image" []
    (fun d hd => absurd hd (List.not_mem_nil d)) rfl rfl

end Flaki
